import Mathlib

/-!
Verification of the single-domain web crawler: the URL frontier (`UrlStore`),
the bounded-retry page fetch (`WebPage._retry_request`), the domain filter and
the orchestration around them, shallowly embedded from `web_crawler.py`.
URLs are plain strings; Python sets of strings become `Finset String`; the
network and the HTML link extractor are external collaborators and appear as
oracles (`req`, `fetch`).
-/

/-- Result of one HTTP request attempt, mirroring the `RequestResult`
dataclass: a success flag (default true) and the decoded text content
(default empty string). -/
structure RequestResult where
  success : Bool := true
  text_content : String := ""
deriving DecidableEq

/-- Recursion of `WebPage._retry_request` on the remaining attempt budget.
`req i` is the result of the i-th call to `WebPage._request` (the network is
external, so attempt outcomes are an oracle). Returns
`(outcome, attempts, sleeps)`: `outcome = none` models the `WebPageException`
raised when the budget is exhausted, `attempts` counts calls to `_request`,
and `sleeps` counts calls to `time.sleep` — in the source a sleep follows
every failed attempt, including the final one. -/
def retry_request_go (req : Nat → RequestResult) : Nat → Nat → Option String × Nat × Nat
  | _, 0 => (none, 0, 0)
  | i, n + 1 =>
    let result := req i
    if result.success then (some result.text_content, 1, 0)
    else
      let r := retry_request_go req (i + 1) n
      (r.1, r.2.1 + 1, r.2.2 + 1)

/-- `WebPage._retry_request`: `retries = 0; while retries < max_retries: ...`.
`max_retries` is a Python int and may be nonpositive, in which case the loop
body never runs and the exception is raised at once; the number of available
iterations is `max_retries.toNat`. -/
def retry_request (req : Nat → RequestResult) (max_retries : Int) : Option String × Nat × Nat :=
  retry_request_go req 0 max_retries.toNat

/-- Model of `urllib.parse.urlparse` restricted to splitting off the scheme
(external collaborator): the scheme is the prefix before the first colon when
it is non-empty, starts with a letter and contains only letters, digits, `+`,
`-` and `.`; it is lowercased in the result. The second component is the
remainder of the URL (the whole URL when there is no scheme). -/
def url_split_scheme (url : String) : String × String :=
  let cs := url.toList
  match cs.findIdx? (fun c => c == ':') with
  | none => ("", url)
  | some n =>
    let s := cs.take n
    let ok := (!s.isEmpty) && (s.headD ' ').isAlpha &&
      s.all (fun c => c.isAlpha || c.isDigit || c == '+' || c == '-' || c == '.')
    if ok then (String.mk (s.map Char.toLower), String.mk (cs.drop (n + 1)))
    else ("", url)

/-- Model of `urllib.parse.urlparse(url).netloc` (external collaborator): the
netloc is present only when the part after the scheme starts with `//`, and
extends up to the next `/`, `?` or `#`; it is not lowercased. -/
def url_netloc (url : String) : String :=
  match (url_split_scheme url).2.toList with
  | '/' :: '/' :: tl =>
      String.mk (tl.takeWhile (fun c => !(c == '/' || c == '?' || c == '#')))
  | _ => ""

/-- `WebCrawler._is_valid_url`: `bool(parsed_url.scheme and parsed_url.netloc)` —
a URL is valid when both its scheme and its netloc are non-empty. -/
def is_valid_url (url : String) : Bool :=
  !(url_split_scheme url).1.isEmpty && !(url_netloc url).isEmpty

/-- `WebCrawler._is_same_domain`: `urlparse(url).netloc == self._domain`, exact
string equality of the URL's netloc with the crawl domain. -/
def is_same_domain (domain : String) (url : String) : Bool :=
  url_netloc url == domain

/-- The configuration part of `WebCrawler.__init__`: the starting URL and the
domain, fixed at construction as `urlparse(starting_url).netloc`. -/
structure WebCrawlerCfg where
  starting_url : String
  domain : String

/-- `WebCrawler.__init__(starting_url, ...)`: stores the starting URL and
derives the crawl domain from it. -/
def mkWebCrawler (starting_url : String) : WebCrawlerCfg :=
  ⟨starting_url, url_netloc starting_url⟩

/-- The frontier `UrlStore`: URLs still to be processed, URLs currently being
processed, all visited URLs, and the ordered list of failed URLs. Python sets
of strings are `Finset String`; the lock serializes the public methods, so
each method is one atomic state transformation. -/
structure UrlStore where
  to_process : Finset String
  in_process : Finset String
  visited : Finset String
  failed : List String
deriving DecidableEq

/-- A fresh `UrlStore()`: all three sets empty and no failures. -/
def UrlStore.empty : UrlStore := ⟨∅, ∅, ∅, []⟩

/-- `UrlStore._set_processed`: `self._in_process.remove(url)` followed by
`self._visited.add(url)`. Python `set.remove` raises `KeyError` when `url` is
absent, in which case nothing is mutated; the Bool is true when no exception
was raised, and the returned store is the store as left behind by the call. -/
def UrlStore.set_processed_core (s : UrlStore) (url : String) : Bool × UrlStore :=
  if url ∈ s.in_process then
    (true, ⟨s.to_process, s.in_process.erase url, insert url s.visited, s.failed⟩)
  else
    (false, s)

/-- `UrlStore.set_processed`: takes the lock and calls `_set_processed`. -/
def UrlStore.set_processed (s : UrlStore) (url : String) : Bool × UrlStore :=
  s.set_processed_core url

/-- `UrlStore.add_failed`: appends `url` to the failed list and only then
calls `_set_processed`; when `_set_processed` raises, the append has already
happened and is not rolled back. -/
def UrlStore.add_failed (s : UrlStore) (url : String) : Bool × UrlStore :=
  UrlStore.set_processed_core ⟨s.to_process, s.in_process, s.visited, s.failed ++ [url]⟩ url

/-- `UrlStore.add_to_be_processed`: `new_urls = set(urls) - visited - in_process`,
then `to_process = to_process.union(new_urls)`. URLs already pending are not
excluded from the difference; the union makes re-adding them a no-op. -/
def UrlStore.add_to_be_processed (s : UrlStore) (urls : List String) : UrlStore :=
  ⟨s.to_process ∪ ((urls.toFinset \ s.visited) \ s.in_process),
   s.in_process, s.visited, s.failed⟩

/-- `UrlStore.num_of_visited`: the size of the visited set. -/
def UrlStore.num_of_visited (s : UrlStore) : Nat := s.visited.card

/-- `UrlStore.num_of_all`: `len(to_process) + len(visited) + len(in_process)`. -/
def UrlStore.num_of_all (s : UrlStore) : Nat :=
  s.to_process.card + s.visited.card + s.in_process.card

/-- Labels for the public frontier operations, carrying the value each call
returns: `pop r` is `pop_if_exists` returning `r`; the Bool on
`set_processed` and `add_failed` records whether the call returned normally
(true) or raised (false). -/
inductive UrlStore.Op where
  | pop : Option String → UrlStore.Op
  | set_processed_op : String → Bool → UrlStore.Op
  | add_failed_op : String → Bool → UrlStore.Op
  | add_op : List String → UrlStore.Op

/-- One atomic frontier call, as a labelled transition between stores.
`pop_if_exists` removes an arbitrary element of `to_process` (Python
`set.pop`) and moves it into `in_process`, or returns `None` when
`to_process` is empty; the remaining constructors invoke the deterministic
operations and record their outcome. -/
inductive UrlStore.Step : UrlStore → UrlStore.Op → UrlStore → Prop where
  | pop_some (s : UrlStore) (u : String) (h : u ∈ s.to_process) :
      UrlStore.Step s (UrlStore.Op.pop (some u))
        ⟨s.to_process.erase u, insert u s.in_process, s.visited, s.failed⟩
  | pop_none (s : UrlStore) (h : s.to_process = ∅) :
      UrlStore.Step s (UrlStore.Op.pop none) s
  | set_processed_step (s : UrlStore) (u : String) :
      UrlStore.Step s (UrlStore.Op.set_processed_op u (s.set_processed u).1)
        (s.set_processed u).2
  | add_failed_step (s : UrlStore) (u : String) :
      UrlStore.Step s (UrlStore.Op.add_failed_op u (s.add_failed u).1)
        (s.add_failed u).2
  | add_step (s : UrlStore) (us : List String) :
      UrlStore.Step s (UrlStore.Op.add_op us) (s.add_to_be_processed us)

/-- Some frontier call leads from `s` to `s'`. -/
def UrlStore.StepAny (s s' : UrlStore) : Prop := ∃ op, UrlStore.Step s op s'

/-- A store is reachable when some finite sequence of frontier calls produces
it from the fresh empty store. -/
def UrlStore.Reachable (s : UrlStore) : Prop :=
  Relation.ReflTransGen UrlStore.StepAny UrlStore.empty s

/-- Pairwise disjointness of the three URL sets of the frontier. -/
def UrlStore.SetsDisjoint (s : UrlStore) : Prop :=
  Disjoint s.to_process s.in_process ∧ Disjoint s.to_process s.visited ∧
    Disjoint s.in_process s.visited

/-- The break test of the worker loop `_process_all_pages`: `if not url: break`.
Python falsiness makes the worker stop both on `None` and on the empty
string. -/
def worker_should_break (popped : Option String) : Bool :=
  match popped with
  | none => true
  | some url => url == ""

/-- Python exceptions that can cross a frontier or page-processing call:
`WebPageException` (fetch exhaustion, carrying the URL) and the `KeyError`
from `set.remove`. -/
inductive PyError where
  | webPageException : String → PyError
  | keyError : PyError
deriving DecidableEq

/-- `WebCrawler._process_page(url)`: fetch and extract links
(`WebPage(url).content().urls(url_defrag=True)`, modelled by the oracle
`fetch`, which is `none` when retries are exhausted and the fetch raises
`WebPageException`), deduplicate, keep valid URLs, keep same-domain URLs,
mark `url` processed, then enqueue the same-domain URLs. An error value is a
propagating exception; the store mutations before the raise have already
happened inside the returned error-free prefix semantics: a fetch error
happens before any store mutation, and a `set_processed` error mutates
nothing. -/
def process_page (fetch : String → Option (List String)) (domain : String)
    (s : UrlStore) (url : String) : Except PyError UrlStore :=
  match fetch url with
  | none => Except.error (PyError.webPageException url)
  | some found_urls =>
    let all_urls := found_urls.dedup
    let valid_urls := all_urls.filter (fun u => is_valid_url u)
    let same_domain_urls := valid_urls.filter (fun u => is_same_domain domain u)
    match s.set_processed url with
    | (true, s1) => Except.ok (s1.add_to_be_processed same_domain_urls)
    | (false, _) => Except.error PyError.keyError

/-- One iteration of the worker loop `_process_all_pages` after a successful
pop: `try: _process_page(url) except WebPageException: print; add_failed(url)`.
Only `WebPageException` is caught; the handler's `add_failed` can itself
raise `KeyError`, which would escape. -/
def worker_iteration (fetch : String → Option (List String)) (domain : String)
    (s : UrlStore) (url : String) : Except PyError UrlStore :=
  match process_page fetch domain s url with
  | Except.ok s1 => Except.ok s1
  | Except.error (PyError.webPageException _) =>
    let r := s.add_failed url
    if r.1 then Except.ok r.2 else Except.error PyError.keyError
  | Except.error PyError.keyError => Except.error PyError.keyError

/-- The synchronous start of `WebCrawler.crawl()`:
`add_to_be_processed([starting_url])` on the fresh store, then
`_process_page(pop_if_exists())` with no exception handler. The pop is
deterministic here because the fresh store holds exactly the starting URL. -/
def crawl_seed_phase (fetch : String → Option (List String))
    (starting_url : String) : Except PyError UrlStore :=
  let cfg := mkWebCrawler starting_url
  let s0 := UrlStore.empty.add_to_be_processed [starting_url]
  let s1 : UrlStore :=
    ⟨s0.to_process.erase starting_url, insert starting_url s0.in_process,
     s0.visited, s0.failed⟩
  process_page fetch cfg.domain s1 starting_url

/-- Demonstration store: the empty store after enqueueing one URL. -/
def demo_added : UrlStore :=
  UrlStore.empty.add_to_be_processed ["http://example.com/a"]

/-- Demonstration store: `demo_added` after `pop_if_exists` claimed its only
URL, leaving the pending set empty while the URL is in flight. -/
def demo_claimed : UrlStore :=
  ⟨demo_added.to_process.erase "http://example.com/a",
   insert "http://example.com/a" demo_added.in_process,
   demo_added.visited, demo_added.failed⟩

/-- Unfolding of `_set_processed` when the URL is in flight: the call returns
normally, moving the URL from `in_process` to `visited`. -/
theorem UrlStore.set_processed_core_of_mem {s : UrlStore} {u : String}
    (h : u ∈ s.in_process) :
    s.set_processed_core u
      = (true, ⟨s.to_process, s.in_process.erase u, insert u s.visited, s.failed⟩) := by
  simp [UrlStore.set_processed_core, h]

/-- Unfolding of `_set_processed` when the URL is not in flight: `set.remove`
raises `KeyError` and the store is untouched. -/
theorem UrlStore.set_processed_core_of_not_mem {s : UrlStore} {u : String}
    (h : u ∉ s.in_process) :
    s.set_processed_core u = (false, s) := by
  simp [UrlStore.set_processed_core, h]

/-- Unfolding of `add_failed` when the URL is in flight. -/
theorem UrlStore.add_failed_of_mem {s : UrlStore} {u : String}
    (h : u ∈ s.in_process) :
    s.add_failed u
      = (true, ⟨s.to_process, s.in_process.erase u, insert u s.visited,
          s.failed ++ [u]⟩) := by
  simp [UrlStore.add_failed, UrlStore.set_processed_core, h]

/-- Unfolding of `add_failed` when the URL is not in flight: the append to the
failed list has already happened when `_set_processed` raises. -/
theorem UrlStore.add_failed_of_not_mem {s : UrlStore} {u : String}
    (h : u ∉ s.in_process) :
    s.add_failed u
      = (false, ⟨s.to_process, s.in_process, s.visited, s.failed ++ [u]⟩) := by
  simp [UrlStore.add_failed, UrlStore.set_processed_core, h]

/-- Moving an in-flight URL into `visited` preserves pairwise disjointness of
the three sets, whatever happens to the failed list. -/
theorem UrlStore.sets_disjoint_mark {s : UrlStore} {u : String}
    (hd : s.SetsDisjoint) (hu : u ∈ s.in_process) (f' : List String) :
    UrlStore.SetsDisjoint
      ⟨s.to_process, s.in_process.erase u, insert u s.visited, f'⟩ := by
  obtain ⟨h1, h2, h3⟩ := hd
  refine ⟨h1.mono_right (Finset.erase_subset _ _), ?_, ?_⟩
  · rw [Finset.disjoint_insert_right]
    exact ⟨Finset.disjoint_right.mp h1 hu, h2⟩
  · rw [Finset.disjoint_insert_right]
    exact ⟨Finset.not_mem_erase _ _, h3.mono_left (Finset.erase_subset _ _)⟩

/-- Every frontier call preserves pairwise disjointness of the three sets. -/
theorem UrlStore.sets_disjoint_step {s s' : UrlStore} {op : UrlStore.Op}
    (hd : s.SetsDisjoint) (h : UrlStore.Step s op s') : s'.SetsDisjoint := by
  obtain ⟨h1, h2, h3⟩ := hd
  cases h with
  | pop_some u hu =>
    refine ⟨?_, h2.mono_left (Finset.erase_subset _ _), ?_⟩
    · rw [Finset.disjoint_insert_right]
      exact ⟨Finset.not_mem_erase _ _, h1.mono_left (Finset.erase_subset _ _)⟩
    · rw [Finset.disjoint_insert_left]
      exact ⟨Finset.disjoint_left.mp h2 hu, h3⟩
  | pop_none _ => exact ⟨h1, h2, h3⟩
  | set_processed_step u =>
    by_cases hm : u ∈ s.in_process
    · simp only [UrlStore.set_processed, UrlStore.set_processed_core_of_mem hm]
      exact UrlStore.sets_disjoint_mark ⟨h1, h2, h3⟩ hm _
    · simp only [UrlStore.set_processed, UrlStore.set_processed_core_of_not_mem hm]
      exact ⟨h1, h2, h3⟩
  | add_failed_step u =>
    by_cases hm : u ∈ s.in_process
    · rw [UrlStore.add_failed_of_mem hm]
      exact UrlStore.sets_disjoint_mark ⟨h1, h2, h3⟩ hm _
    · rw [UrlStore.add_failed_of_not_mem hm]
      exact ⟨h1, h2, h3⟩
  | add_step us =>
    simp only [UrlStore.add_to_be_processed]
    refine ⟨?_, ?_, h3⟩
    · rw [Finset.disjoint_union_left]
      exact ⟨h1, Finset.sdiff_disjoint⟩
    · rw [Finset.disjoint_union_left]
      exact ⟨h2, Finset.sdiff_disjoint.mono_left Finset.sdiff_subset⟩

/-- Pairwise disjointness is preserved along any sequence of frontier calls. -/
theorem UrlStore.sets_disjoint_rtg {s s' : UrlStore} (hd : s.SetsDisjoint)
    (h : Relation.ReflTransGen UrlStore.StepAny s s') : s'.SetsDisjoint := by
  induction h with
  | refl => exact hd
  | tail _ hbc ih =>
    obtain ⟨op, hs⟩ := hbc
    exact UrlStore.sets_disjoint_step ih hs

/-- Every reachable store has pairwise disjoint sets. -/
theorem UrlStore.sets_disjoint_reachable {s : UrlStore} (h : s.Reachable) :
    s.SetsDisjoint :=
  UrlStore.sets_disjoint_rtg
    ⟨by simp [UrlStore.empty], by simp [UrlStore.empty], by simp [UrlStore.empty]⟩ h

/-- No single frontier call removes a URL from `visited`. -/
theorem UrlStore.visited_subset_step {s s' : UrlStore} {op : UrlStore.Op}
    (h : UrlStore.Step s op s') : s.visited ⊆ s'.visited := by
  cases h with
  | pop_some u hu => exact Finset.Subset.refl _
  | pop_none _ => exact Finset.Subset.refl _
  | set_processed_step u =>
    by_cases hm : u ∈ s.in_process
    · simp only [UrlStore.set_processed, UrlStore.set_processed_core_of_mem hm]
      exact Finset.subset_insert _ _
    · simp only [UrlStore.set_processed, UrlStore.set_processed_core_of_not_mem hm]
      exact Finset.Subset.refl _
  | add_failed_step u =>
    by_cases hm : u ∈ s.in_process
    · rw [UrlStore.add_failed_of_mem hm]
      exact Finset.subset_insert _ _
    · rw [UrlStore.add_failed_of_not_mem hm]
  | add_step us => exact Finset.Subset.refl _

/-- No sequence of frontier calls removes a URL from `visited`. -/
theorem UrlStore.visited_subset_rtg {s s' : UrlStore}
    (h : Relation.ReflTransGen UrlStore.StepAny s s') : s.visited ⊆ s'.visited := by
  induction h with
  | refl => exact Finset.Subset.refl _
  | tail _ hbc ih =>
    obtain ⟨op, hs⟩ := hbc
    exact ih.trans (UrlStore.visited_subset_step hs)

/-- A URL that is in flight or visited stays in flight or visited across any
single frontier call: the only exit from `in_process` is `_set_processed`,
which inserts into `visited`. -/
theorem UrlStore.claimed_stays_step {s s' : UrlStore} {op : UrlStore.Op}
    {u : String} (h : UrlStore.Step s op s')
    (hu : u ∈ s.in_process ∪ s.visited) : u ∈ s'.in_process ∪ s'.visited := by
  rw [Finset.mem_union] at hu ⊢
  cases h with
  | pop_some v hv =>
    rcases hu with h | h
    · exact Or.inl (Finset.mem_insert_of_mem h)
    · exact Or.inr h
  | pop_none _ => exact hu
  | set_processed_step v =>
    by_cases hm : v ∈ s.in_process
    · simp only [UrlStore.set_processed, UrlStore.set_processed_core_of_mem hm]
      rcases hu with h | h
      · by_cases huv : u = v
        · exact Or.inr (huv ▸ Finset.mem_insert_self _ _)
        · exact Or.inl (Finset.mem_erase.mpr ⟨huv, h⟩)
      · exact Or.inr (Finset.mem_insert_of_mem h)
    · simp only [UrlStore.set_processed, UrlStore.set_processed_core_of_not_mem hm]
      exact hu
  | add_failed_step v =>
    by_cases hm : v ∈ s.in_process
    · rw [UrlStore.add_failed_of_mem hm]
      rcases hu with h | h
      · by_cases huv : u = v
        · exact Or.inr (huv ▸ Finset.mem_insert_self _ _)
        · exact Or.inl (Finset.mem_erase.mpr ⟨huv, h⟩)
      · exact Or.inr (Finset.mem_insert_of_mem h)
    · rw [UrlStore.add_failed_of_not_mem hm]
      exact hu
  | add_step us => exact hu

/-- A URL that is in flight or visited stays in flight or visited across any
sequence of frontier calls. -/
theorem UrlStore.claimed_stays_rtg {s s' : UrlStore} {u : String}
    (h : Relation.ReflTransGen UrlStore.StepAny s s')
    (hu : u ∈ s.in_process ∪ s.visited) : u ∈ s'.in_process ∪ s'.visited := by
  induction h with
  | refl => exact hu
  | tail _ hbc ih =>
    obtain ⟨op, hs⟩ := hbc
    exact UrlStore.claimed_stays_step hs ih

/-- The store `demo_added` is reachable: one `add_to_be_processed` call. -/
theorem demo_added_reachable : demo_added.Reachable :=
  Relation.ReflTransGen.single
    ⟨UrlStore.Op.add_op ["http://example.com/a"],
     UrlStore.Step.add_step UrlStore.empty ["http://example.com/a"]⟩

/-- The store `demo_claimed` is reachable: enqueue one URL, then claim it. -/
theorem demo_claimed_reachable : demo_claimed.Reachable :=
  Relation.ReflTransGen.tail demo_added_reachable
    ⟨UrlStore.Op.pop (some "http://example.com/a"),
     UrlStore.Step.pop_some demo_added "http://example.com/a" (by decide)⟩

/-- In `demo_claimed` the pending set is empty while one URL is in flight. -/
theorem demo_claimed_to_process_empty : demo_claimed.to_process = ∅ := by
  simp [demo_claimed, demo_added, UrlStore.add_to_be_processed, UrlStore.empty]

/-- Claim C1: over any sequence of frontier operations from the empty
`UrlStore`, a URL that is in `in_process` or in `visited` at some reachable
state is not in `to_process` at that state or at any later state, and hence
cannot be returned by `pop_if_exists` there: once claimed, a URL is never
returned a second time while in flight, and a URL that has entered `visited`
is never returned again. -/
theorem urlstore_no_second_claim :
    ∀ (s s' : UrlStore), s.Reachable →
      Relation.ReflTransGen UrlStore.StepAny s s' →
      ∀ u : String, u ∈ s.in_process ∨ u ∈ s.visited →
        u ∉ s'.to_process ∧
          ∀ t : UrlStore, ¬ UrlStore.Step s' (UrlStore.Op.pop (some u)) t := by
  intro s s' hs hss' u hu
  have hu' : u ∈ s'.in_process ∪ s'.visited :=
    UrlStore.claimed_stays_rtg hss' (Finset.mem_union.mpr hu)
  obtain ⟨h1, h2, h3⟩ := UrlStore.sets_disjoint_reachable (hs.trans hss')
  have hnot : u ∉ s'.to_process := by
    rcases Finset.mem_union.mp hu' with h | h
    · exact Finset.disjoint_right.mp h1 h
    · exact Finset.disjoint_right.mp h2 h
  refine ⟨hnot, fun t hstep => ?_⟩
  cases hstep with
  | pop_some _ hmem => exact hnot hmem

/-- Witness for C1 at a concrete reachable store: after enqueueing and
claiming one URL, that URL is in flight, is no longer pending, and no pop
transition can return it. -/
theorem urlstore_no_second_claim_witness :
    "http://example.com/a" ∈ demo_claimed.in_process ∧
      "http://example.com/a" ∉ demo_claimed.to_process ∧
      ¬ UrlStore.Step demo_claimed
          (UrlStore.Op.pop (some "http://example.com/a")) demo_claimed := by
  have h := urlstore_no_second_claim demo_claimed demo_claimed
    demo_claimed_reachable Relation.ReflTransGen.refl
    "http://example.com/a" (Or.inl (by decide))
  exact ⟨by decide, h.1, h.2 demo_claimed⟩

/-- Claim C2: the three sets `_to_process`, `_in_process` and `_visited` are
pairwise disjoint in every store reachable from the empty `UrlStore`, and
every frontier operation preserves pairwise disjointness. -/
theorem urlstore_sets_pairwise_disjoint :
    (∀ s : UrlStore, s.Reachable → s.SetsDisjoint) ∧
      ∀ (s s' : UrlStore) (op : UrlStore.Op),
        s.SetsDisjoint → UrlStore.Step s op s' → s'.SetsDisjoint :=
  ⟨fun _ h => UrlStore.sets_disjoint_reachable h,
   fun _ _ _ hd h => UrlStore.sets_disjoint_step hd h⟩

/-- Witness for C2 at a concrete reachable store. -/
theorem urlstore_sets_pairwise_disjoint_witness : demo_claimed.SetsDisjoint :=
  urlstore_sets_pairwise_disjoint.1 demo_claimed demo_claimed_reachable

/-- Claim C3 (refuted, code bug): in the reachable store `demo_claimed` the
pending set is empty while a URL is still in flight; `pop_if_exists` returns
`None` there and the worker loop `_process_all_pages` breaks immediately
(`if not url: break`), even though the in-flight URL's processing could still
enqueue new pending URLs. The code therefore stops a worker at the first
empty claim instead of waiting for the frontier to be exhausted. -/
theorem worker_exits_despite_inflight :
    demo_claimed.Reachable ∧
      UrlStore.Step demo_claimed (UrlStore.Op.pop none) demo_claimed ∧
      worker_should_break none = true ∧
      demo_claimed.in_process ≠ ∅ := by
  refine ⟨demo_claimed_reachable,
    UrlStore.Step.pop_none _ demo_claimed_to_process_empty, rfl, ?_⟩
  simp [demo_claimed, demo_added, UrlStore.add_to_be_processed, UrlStore.empty]

/-- Claim C10: the visited set is monotone: every single frontier operation,
and hence every sequence of frontier operations, maps the visited set to a
superset of itself. -/
theorem urlstore_visited_monotone :
    (∀ (s s' : UrlStore) (op : UrlStore.Op),
        UrlStore.Step s op s' → s.visited ⊆ s'.visited) ∧
      ∀ s s' : UrlStore, Relation.ReflTransGen UrlStore.StepAny s s' →
        s.visited ⊆ s'.visited :=
  ⟨fun _ _ _ h => UrlStore.visited_subset_step h,
   fun _ _ h => UrlStore.visited_subset_rtg h⟩

/-- Witness for C10 at a concrete step: the enqueue step from the empty store
to `demo_added` does not shrink the visited set. -/
theorem urlstore_visited_monotone_witness :
    UrlStore.empty.visited ⊆ demo_added.visited :=
  urlstore_visited_monotone.1 UrlStore.empty demo_added
    (UrlStore.Op.add_op ["http://example.com/a"])
    (UrlStore.Step.add_step UrlStore.empty ["http://example.com/a"])

/-- Claim C4: `add_to_be_processed` leaves `in_process`, `visited` and
`failed` unchanged and replaces the pending set by
`pending ∪ (input − visited − in_process)`; enqueueing a single URL already
visited or in flight leaves the whole store unchanged, and enqueueing a URL
already pending is a no-op union, so `num_of_all` does not double-count. -/
theorem urlstore_add_to_be_processed_spec :
    ∀ (s : UrlStore) (urls : List String),
      (s.add_to_be_processed urls).in_process = s.in_process ∧
      (s.add_to_be_processed urls).visited = s.visited ∧
      (s.add_to_be_processed urls).failed = s.failed ∧
      (s.add_to_be_processed urls).to_process
        = s.to_process ∪ ((urls.toFinset \ s.visited) \ s.in_process) ∧
      (∀ u : String, u ∈ s.visited ∨ u ∈ s.in_process →
        s.add_to_be_processed [u] = s) ∧
      ∀ u : String, u ∈ s.to_process →
        s.add_to_be_processed [u] = s ∧
          (s.add_to_be_processed [u]).num_of_all = s.num_of_all := by
  intro s urls
  refine ⟨rfl, rfl, rfl, rfl, ?_, ?_⟩
  · intro u hu
    have hX : (([u].toFinset \ s.visited) \ s.in_process) = (∅ : Finset String) := by
      ext x
      simp only [List.toFinset_cons, List.toFinset_nil, Finset.mem_sdiff,
        Finset.mem_insert, Finset.not_mem_empty, iff_false, or_false]
      rintro ⟨⟨rfl, hv⟩, hip⟩
      rcases hu with h | h
      · exact hv h
      · exact hip h
    show UrlStore.mk _ _ _ _ = s
    rw [hX, Finset.union_empty]
  · intro u hu
    have hX : s.to_process ∪ (([u].toFinset \ s.visited) \ s.in_process)
        = s.to_process := by
      apply Finset.union_eq_left.mpr
      intro x hx
      have hxu : x = u := by
        have := (Finset.mem_sdiff.mp (Finset.mem_sdiff.mp hx).1).1
        simpa using this
      exact hxu ▸ hu
    have hs : s.add_to_be_processed [u] = s := by
      show UrlStore.mk _ _ _ _ = s
      rw [hX]
    exact ⟨hs, by rw [hs]⟩

/-- Witness for C4 at a concrete store: re-enqueueing a visited, an in-flight
and an already-pending URL each leave the store (and its total count)
unchanged. -/
theorem urlstore_add_to_be_processed_spec_witness :
    (UrlStore.mk {"p"} {"i"} {"v"} []).add_to_be_processed ["v"]
        = UrlStore.mk {"p"} {"i"} {"v"} [] ∧
      (UrlStore.mk {"p"} {"i"} {"v"} []).add_to_be_processed ["i"]
        = UrlStore.mk {"p"} {"i"} {"v"} [] ∧
      (UrlStore.mk {"p"} {"i"} {"v"} []).add_to_be_processed ["p"]
        = UrlStore.mk {"p"} {"i"} {"v"} [] ∧
      ((UrlStore.mk {"p"} {"i"} {"v"} []).add_to_be_processed ["p"]).num_of_all
        = (UrlStore.mk {"p"} {"i"} {"v"} []).num_of_all :=
  ⟨(urlstore_add_to_be_processed_spec (UrlStore.mk {"p"} {"i"} {"v"} [])
      []).2.2.2.2.1 "v" (Or.inl (by decide)),
   (urlstore_add_to_be_processed_spec (UrlStore.mk {"p"} {"i"} {"v"} [])
      []).2.2.2.2.1 "i" (Or.inr (by decide)),
   ((urlstore_add_to_be_processed_spec (UrlStore.mk {"p"} {"i"} {"v"} [])
      []).2.2.2.2.2 "p" (by decide)).1,
   ((urlstore_add_to_be_processed_spec (UrlStore.mk {"p"} {"i"} {"v"} [])
      []).2.2.2.2.2 "p" (by decide)).2⟩

/-- Claim C5 counterexample: with `max_retries = 3` and every attempt
failing, `_retry_request` sleeps 3 delays (one after every failed attempt,
including the last), not the 2 inter-attempt delays the claim states. -/
theorem retry_exhaustion_not_two_delays :
    retry_request (fun _ => RequestResult.mk false "") 3 = (none, 3, 3) ∧
      (retry_request (fun _ => RequestResult.mk false "") 3).2.2 ≠ 2 := by
  constructor <;> decide

/-- Claim C5 (amended): a fetcher with `max_retries = 3` whose every attempt
fails issues exactly 3 request attempts and sleeps exactly 3 delays — one
after each failed attempt, the final one included — before raising
`WebPageException`; this matches the source's own test, which asserts
`sleep` is called `max_retries` times. -/
theorem retry_exhaustion_three_attempts_three_delays :
    ∀ req : Nat → RequestResult, (∀ i, (req i).success = false) →
      retry_request req 3 = (none, 3, 3) := by
  intro req h
  show retry_request_go req 0 3 = (none, 3, 3)
  simp [retry_request_go, h]

/-- Witness for the amended C5 at the constantly failing oracle. -/
theorem retry_exhaustion_three_attempts_three_delays_witness :
    retry_request (fun _ => RequestResult.mk false "") 3 = (none, 3, 3) :=
  retry_exhaustion_three_attempts_three_delays _ (fun _ => rfl)

/-- Claim C9: with a nonpositive `max_retries` the retry loop body never
runs: the fetch raises `WebPageException` immediately, with zero request
attempts and zero sleeps. -/
theorem retry_nonpositive_immediate_failure :
    ∀ m : Int, m ≤ 0 → ∀ req : Nat → RequestResult,
      retry_request req m = (none, 0, 0) := by
  intro m hm req
  show retry_request_go req 0 m.toNat = (none, 0, 0)
  rw [Int.toNat_of_nonpos hm]
  rfl

/-- Witness for C9 at `max_retries = -1` with an oracle that would succeed:
no attempt is even issued. -/
theorem retry_nonpositive_immediate_failure_witness :
    (-1 : Int) ≤ 0 ∧
      retry_request (fun _ => RequestResult.mk true "ok") (-1) = (none, 0, 0) :=
  ⟨by decide, retry_nonpositive_immediate_failure (-1) (by decide) _⟩

/-- Claim C6 counterexample: calling `add_failed` on the empty store raises
(the URL is not in flight) but the URL has already been appended to the
failed list, so the frontier state is not left unchanged in the error
case. -/
theorem add_failed_error_state_changed :
    (UrlStore.empty.add_failed "http://example.com/a").1 = false ∧
      (UrlStore.empty.add_failed "http://example.com/a").2 ≠ UrlStore.empty ∧
      (UrlStore.empty.add_failed "http://example.com/a").2.failed
        = ["http://example.com/a"] := by
  refine ⟨?_, ?_, ?_⟩
  · rw [UrlStore.add_failed_of_not_mem (by decide)]
  · rw [UrlStore.add_failed_of_not_mem (by decide)]
    intro h
    exact List.cons_ne_nil _ _ (congrArg UrlStore.failed h)
  · rw [UrlStore.add_failed_of_not_mem (by decide)]
    rfl

/-- Claim C6 (amended): `set_processed(u)` and `add_failed(u)` raise exactly
when `u` is not in `in_process`; on success both move `u` from `in_process`
to `visited`, `add_failed` additionally appending `u` to `failed`; in the
error case `set_processed` leaves the store unchanged, while `add_failed`
leaves the three sets unchanged but has already appended `u` to the failed
list. -/
theorem set_processed_add_failed_spec :
    ∀ (s : UrlStore) (u : String),
      ((s.set_processed u).1 = false ↔ u ∉ s.in_process) ∧
      ((s.add_failed u).1 = false ↔ u ∉ s.in_process) ∧
      (u ∈ s.in_process →
        (s.set_processed u).2
          = ⟨s.to_process, s.in_process.erase u, insert u s.visited, s.failed⟩ ∧
        (s.add_failed u).2
          = ⟨s.to_process, s.in_process.erase u, insert u s.visited,
              s.failed ++ [u]⟩) ∧
      (u ∉ s.in_process →
        (s.set_processed u).2 = s ∧
        (s.add_failed u).2
          = ⟨s.to_process, s.in_process, s.visited, s.failed ++ [u]⟩) := by
  intro s u
  by_cases hm : u ∈ s.in_process
  · refine ⟨?_, ?_, fun _ => ⟨?_, ?_⟩, fun hc => absurd hm hc⟩
    · simp [UrlStore.set_processed, UrlStore.set_processed_core_of_mem hm, hm]
    · simp [UrlStore.add_failed_of_mem hm, hm]
    · simp [UrlStore.set_processed, UrlStore.set_processed_core_of_mem hm]
    · simp [UrlStore.add_failed_of_mem hm]
  · refine ⟨?_, ?_, fun hc => absurd hc hm, fun _ => ⟨?_, ?_⟩⟩
    · simp [UrlStore.set_processed, UrlStore.set_processed_core_of_not_mem hm, hm]
    · simp [UrlStore.add_failed_of_not_mem hm, hm]
    · simp [UrlStore.set_processed, UrlStore.set_processed_core_of_not_mem hm]
    · simp [UrlStore.add_failed_of_not_mem hm]

/-- Witness for the amended C6: a successful `set_processed` on a store whose
only in-flight URL is removed and marked visited, and a failing `add_failed`
on the empty store that still appends to the failed list. -/
theorem set_processed_add_failed_spec_witness :
    ((UrlStore.mk ∅ {"u"} ∅ []).set_processed "u").2
        = UrlStore.mk ∅ (({"u"} : Finset String).erase "u")
            (insert "u" (∅ : Finset String)) [] ∧
      (UrlStore.empty.add_failed "v").2 = UrlStore.mk ∅ ∅ ∅ ([] ++ ["v"]) :=
  ⟨((set_processed_add_failed_spec (UrlStore.mk ∅ {"u"} ∅ []) "u").2.2.1
      (by decide)).1,
   ((set_processed_add_failed_spec UrlStore.empty "v").2.2.2 (by decide)).2⟩

/-- Claim C7 counterexample: with a fetch oracle that always exhausts its
retries, the seed URL that `crawl()` processes synchronously (with no
exception handler around `_process_page`) makes the `WebPageException`
propagate out of `crawl()`: the failure is not contained, the seed is not
routed to the failure log, and it is never marked visited. -/
theorem crawl_seed_fetch_failure_escapes :
    crawl_seed_phase (fun _ => none) "http://example.com"
      = Except.error (PyError.webPageException "http://example.com") := rfl

/-- Claim C7 (amended): fetch-exhaustion failures are contained for URLs
processed by the worker loop — the worker catches `WebPageException`, routes
the URL to the failure log and marks it visited, and keeps running — but the
seed URL processed synchronously at the start of `crawl()` is not protected:
fetch exhaustion there propagates the exception out of `crawl()`. -/
theorem worker_failure_containment :
    (∀ (fetch : String → Option (List String)) (domain : String)
        (s : UrlStore) (url : String),
        fetch url = none → url ∈ s.in_process →
          worker_iteration fetch domain s url
            = Except.ok ⟨s.to_process, s.in_process.erase url,
                insert url s.visited, s.failed ++ [url]⟩) ∧
      ∀ (fetch : String → Option (List String)) (starting_url : String),
        fetch starting_url = none →
          crawl_seed_phase fetch starting_url
            = Except.error (PyError.webPageException starting_url) := by
  constructor
  · intro fetch domain s url hf hm
    simp [worker_iteration, process_page, hf, UrlStore.add_failed_of_mem hm]
  · intro fetch starting_url hf
    simp [crawl_seed_phase, process_page, hf]

/-- Witness for the amended C7: a worker that claims the demo URL and then
exhausts its retries ends with an ok store in which the URL moved to visited
and was appended to the failed list. -/
theorem worker_failure_containment_witness :
    worker_iteration (fun _ => none) "example.com" demo_claimed
        "http://example.com/a"
      = Except.ok ⟨demo_claimed.to_process,
          demo_claimed.in_process.erase "http://example.com/a",
          insert "http://example.com/a" demo_claimed.visited,
          demo_claimed.failed ++ ["http://example.com/a"]⟩ :=
  worker_failure_containment.1 (fun _ => none) "example.com" demo_claimed
    "http://example.com/a" rfl (by decide)

/-- Claim C8: `_is_same_domain(u)` holds iff the netloc of `u` is
string-equal to the netloc of the seed URL fixed at construction; a
subdomain such as sub.example.com never matches example.com, while the same
host under a different scheme does match. -/
theorem is_same_domain_exact_host :
    (∀ seed u : String,
        is_same_domain (mkWebCrawler seed).domain u = true
          ↔ url_netloc u = url_netloc seed) ∧
      is_same_domain (mkWebCrawler "http://example.com").domain
          "http://sub.example.com/x" = false ∧
      is_same_domain (mkWebCrawler "http://example.com").domain
          "https://example.com/x" = true := by
  refine ⟨fun seed u => ?_, by decide, by decide⟩
  simp [is_same_domain, mkWebCrawler]

/-- Witness for C8: the biconditional applied at a scheme-differing URL over
the same host. -/
theorem is_same_domain_exact_host_witness :
    is_same_domain (mkWebCrawler "http://example.com").domain
        "https://example.com/y" = true :=
  (is_same_domain_exact_host.1 "http://example.com"
      "https://example.com/y").mpr (by decide)
